import Mathlib

/-!
Shallow embedding of the OBWCrawler sources (src/obwc.py) and proofs about
the bounded recursive crawl controller.

The external YouTube API is modelled as an oracle `Ctx.api : String → Nat →
Outcome` giving, for each keyword, the outcome of the `execute()` call on the
0-based attempt index of the retry loop.  The random source behind
`random.randint(0, 1000)` is modelled as an oracle `Ctx.rand : Nat → Nat`
indexed by a global counter threaded through the run; `randint(0, 1000)`
returns a value in the inclusive range [0, 1000], which is modelled by
reducing the oracle's value modulo 1001.  `time.sleep` calls are recorded in
an event list so that theorems can speak about the backoff schedule.
-/

/-- Video metadata record built at obwc.py lines 106-112: the dictionary with
title, url, channel, description (defaulted to the empty string when the API
omits it) and the discovery depth. -/
structure SearchResult where
  title : String
  url : String
  channel : String
  description : String
  depth : Nat
deriving DecidableEq

/-- Raw item of a successful API response: the fields of `search_result` that
obwc.py lines 106-112 read.  `description` is optional because the code reads
it with `snippet.get('description', '')`. -/
structure Item where
  title : String
  videoId : String
  channelTitle : String
  description : Option String
deriving DecidableEq

/-- Outcome of one `youtube.search().list(...).execute()` call (obwc.py lines
96-101): a successful response carrying its item list (the code reads
`search_response.get('items', [])`, so a response without items is the same
as `success []`), an `HttpError` carrying `e.resp.status` and `str(e.content)`
(obwc.py lines 126-137), or any other exception (obwc.py line 138). -/
inductive Outcome where
  | success (items : List Item)
  | httpError (status : Nat) (content : String)
  | otherError
deriving DecidableEq

/-- Call context: the API and randomness oracles together with the parameters
that `search_videos_by_keyword` passes unchanged to every recursive sub-call
(obwc.py line 121): `max_results`, `max_depth`, `api_key`, `max_retries`,
`default_timeout`. -/
structure Ctx where
  api : String → Nat → Outcome
  rand : Nat → Nat
  max_results : Nat
  max_depth : Nat
  api_key : String
  max_retries : Nat
  default_timeout : ℚ

/-- State threaded through a call tree: the accumulated video list of the
current call, the global log of `time.sleep` durations, and the global
counter of `random.randint` draws. -/
structure St where
  videos : List SearchResult
  sleeps : List ℚ
  rc : Nat
deriving DecidableEq

/-- Prefix test on character lists. -/
def isPrefixChars : List Char → List Char → Bool
  | [], _ => true
  | _ :: _, [] => false
  | p :: ps, c :: cs => p == c && isPrefixChars ps cs

/-- Substring search on character lists. -/
def strContainsAux (pat : List Char) : List Char → Bool
  | [] => isPrefixChars pat []
  | c :: rest => isPrefixChars pat (c :: rest) || strContainsAux pat rest

/-- Python's `pat in s` on strings, used by obwc.py line 127 for
`'quotaExceeded' in str(e.content)`. -/
def strContains (s pat : String) : Bool :=
  strContainsAux pat.data s.data

/-- Word characters matched by the regex `\w` (ASCII fragment: letters,
digits and underscore). -/
def isWordChar (c : Char) : Bool := c.isAlphanum || c == '_'

/-- Scanner computing `re.findall(r'\w+', s)`: maximal runs of word
characters, in order of appearance.  `cur` holds the reversed current run. -/
def wordsAux : List Char → List Char → List String
  | [], [] => []
  | [], cur => [String.mk cur.reverse]
  | c :: rest, cur =>
    if isWordChar c then wordsAux rest (c :: cur)
    else
      match cur with
      | [] => wordsAux rest []
      | _ :: _ => String.mk cur.reverse :: wordsAux rest []

/-- List of maximal word-character runs of a string: `re.findall(r'\w+', s)`
(obwc.py lines 159 and 162). -/
def findallWords (s : String) : List String := wordsAux s.data []

/-- Deduplication scanner keeping the first occurrence of each element not
yet in `seen`. -/
def pyDedupAux (seen : List String) : List String → List String
  | [] => []
  | x :: xs =>
    if seen.contains x then pyDedupAux seen xs
    else x :: pyDedupAux (x :: seen) xs

/-- Deduplication keeping first occurrences: a deterministic model of
`list(set(xs))` at obwc.py line 165.  CPython's set iteration order is
implementation-defined but fixed within one interpreter run; the embedding
pins it to first-occurrence order. -/
def pyDedup (l : List String) : List String := pyDedupAux [] l

/-- Lowercasing `str.lower()` (ASCII fragment), character by character. -/
def toLowerStr (s : String) : String := String.mk (s.data.map Char.toLower)

/-- Translation of `extract_related_keywords` (obwc.py lines 145-168): empty
description means no spidering; otherwise the word tokens of the lowercased
title and description, combined and deduplicated. -/
def extract_related_keywords (video_metadata : SearchResult) : List String :=
  let title := video_metadata.title
  let description := video_metadata.description
  if description = "" then []
  else
    let title_keywords := findallWords (toLowerStr title)
    let description_keywords := findallWords (toLowerStr description)
    pyDedup (title_keywords ++ description_keywords)

/-- Construction of the `video_metadata` dictionary (obwc.py lines 106-112). -/
def mkVideoMetadata (search_result : Item) (depth : Nat) : SearchResult :=
  { title := search_result.title
    url := "https://www.youtube.com/watch?v=" ++ search_result.videoId
    channel := search_result.channelTitle
    description := search_result.description.getD ""
    depth := depth }

/-- Backoff sleep duration of obwc.py line 132:
`(default_timeout * (2 ** n)) + (random.randint(0, 1000) / 1000)`, where `r`
is the raw draw of the randomness oracle and `r % 1001` models the inclusive
range of `randint(0, 1000)`. -/
def sleepTime (default_timeout : ℚ) (n : Nat) (r : Nat) : ℚ :=
  default_timeout * 2 ^ n + ((r % 1001 : Nat) : ℚ) / 1000

mutual

/-- Retry loop of `search_videos_by_keyword` (obwc.py lines 92-143), from
attempt index `n` on, with `videos` the accumulator built at line 90 and the
sleep log and randomness counter threaded through.  A successful attempt
processes its items and returns (line 124; when an exception escapes the
item loop the `except` handler breaks and line 142 returns the same
accumulated list).  A 403 whose content mentions quotaExceeded breaks (lines
127-129); another 403/500/503 sleeps and retries (lines 130-134); any other
error breaks (lines 135-140); an exhausted loop falls through to line 142. -/
def searchAttempts (ctx : Ctx) (keyword : String) (depth n : Nat)
    (videos : List SearchResult) (c : Nat) (sleeps : List ℚ) : St :=
  if h : n < ctx.max_retries then
    match ctx.api keyword n with
    | Outcome.success items => (processItems ctx depth items videos c sleeps).1
    | Outcome.httpError status content =>
      if status == 403 && strContains content "quotaExceeded" then
        ⟨videos, sleeps, c⟩
      else if status == 403 || status == 500 || status == 503 then
        searchAttempts ctx keyword depth (n + 1) videos (c + 1)
          (sleeps ++ [sleepTime ctx.default_timeout n (ctx.rand c)])
      else ⟨videos, sleeps, c⟩
    | Outcome.otherError => ⟨videos, sleeps, c⟩
  else ⟨videos, sleeps, c⟩
termination_by (ctx.max_depth - depth, 2, ctx.max_retries - n, 0)

/-- Item loop of a successful attempt (obwc.py lines 104-122): append the
metadata of each item, and below `max_depth` recurse once per extracted
keyword.  The Boolean is `false` when an exception from a recursive call
aborted the loop (caught at line 138, breaking out with the results
accumulated so far). -/
def processItems (ctx : Ctx) (depth : Nat) (items : List Item)
    (videos : List SearchResult) (c : Nat) (sleeps : List ℚ) : St × Bool :=
  match items with
  | [] => (⟨videos, sleeps, c⟩, true)
  | search_result :: rest =>
    let video_metadata := mkVideoMetadata search_result depth
    let videos1 := videos ++ [video_metadata]
    if h : depth < ctx.max_depth then
      match processKeywords ctx depth h (extract_related_keywords video_metadata)
          videos1 c sleeps with
      | (st, true) => processItems ctx depth rest st.videos st.rc st.sleeps
      | (st, false) => (st, false)
    else
      processItems ctx depth rest videos1 c sleeps
termination_by (ctx.max_depth - depth, 1, items.length, 0)

/-- Keyword loop of one item (obwc.py lines 120-121): extend the accumulator
with the full result sequence of one recursive sub-call per extracted
keyword, left to right. -/
def processKeywords (ctx : Ctx) (depth : Nat) (h : depth < ctx.max_depth)
    (kws : List String) (videos : List SearchResult) (c : Nat)
    (sleeps : List ℚ) : St × Bool :=
  match kws with
  | [] => (⟨videos, sleeps, c⟩, true)
  | keyword :: rest =>
    match search_videos_by_keyword ctx keyword (depth + 1) c with
    | Except.ok sub =>
      processKeywords ctx depth h rest (videos ++ sub.videos) sub.rc
        (sleeps ++ sub.sleeps)
    | Except.error _ => (⟨videos, sleeps, c⟩, false)
termination_by (ctx.max_depth - depth, 0, kws.length, 0)

/-- Translation of `search_videos_by_keyword` (obwc.py lines 78-143): raise
`ValueError` when the API key is empty (lines 83-85), otherwise run the
retry loop with a fresh accumulator (line 90). -/
def search_videos_by_keyword (ctx : Ctx) (keyword : String) (depth : Nat)
    (c : Nat) : Except String St :=
  if ctx.api_key = "" then Except.error "API key is required"
  else Except.ok (searchAttempts ctx keyword depth 0 [] c [])
termination_by (ctx.max_depth - depth, 3, 0, 0)

end

/-- Retry state machine of the spec (section 4.2, steps 4-8): scanning
attempts from index `n` with `remaining` attempts left, the item list of the
first successful attempt, or `none` when a quota-exhaustion failure, a
non-retryable failure, an unclassified error or retry exhaustion ends the
loop first.  Retryable failures are the 403/500/503 responses other than the
quota variant. -/
def firstSuccess (ctx : Ctx) (keyword : String) : Nat → Nat → Option (List Item)
  | _, 0 => none
  | n, remaining + 1 =>
    match ctx.api keyword n with
    | Outcome.success items => some items
    | Outcome.httpError status content =>
      if status == 403 && strContains content "quotaExceeded" then none
      else if status == 403 || status == 500 || status == 503 then
        firstSuccess ctx keyword (n + 1) remaining
      else none
    | Outcome.otherError => none

mutual

/-- Declarative result sequence of one call, following the spec's wording
(section 3, ordering invariant): the items of the first succeeding attempt,
expanded in order. -/
def specCrawl (ctx : Ctx) (keyword : String) (depth : Nat) : List SearchResult :=
  match firstSuccess ctx keyword 0 ctx.max_retries with
  | none => []
  | some items => specItems ctx depth items
termination_by (ctx.max_depth - depth, 2, 0)

/-- Declarative expansion of an item list at a given depth: each item's
record, followed immediately by the full result sequences of its recursive
sub-calls (when depth budget remains), then the next item. -/
def specItems (ctx : Ctx) (depth : Nat) (items : List Item) : List SearchResult :=
  match items with
  | [] => []
  | search_result :: rest =>
    let video_metadata := mkVideoMetadata search_result depth
    (video_metadata ::
        (if h : depth < ctx.max_depth then
          specKws ctx depth h (extract_related_keywords video_metadata)
        else [])) ++
      specItems ctx depth rest
termination_by (ctx.max_depth - depth, 1, items.length)

/-- Declarative concatenation of the sub-call result sequences of one item,
one recursive call per extracted keyword, in iteration order. -/
def specKws (ctx : Ctx) (depth : Nat) (h : depth < ctx.max_depth)
    (kws : List String) : List SearchResult :=
  match kws with
  | [] => []
  | keyword :: rest =>
    specCrawl ctx keyword (depth + 1) ++ specKws ctx depth h rest
termination_by (ctx.max_depth - depth, 0, kws.length)

end

/-- Classification of an attempt outcome that takes the backoff-and-retry
branch of obwc.py lines 130-134: status 403/500/503, excluding the quota
variant of line 127. -/
def isRetryableFailure : Outcome → Bool
  | Outcome.httpError status content =>
    !(status == 403 && strContains content "quotaExceeded") &&
      (status == 403 || status == 500 || status == 503)
  | _ => false

/-- Classification of an attempt outcome that leaves the retry loop at once
with no sleep: the quota variant (obwc.py line 129), a non-retryable status
(line 137) or an unclassified error (line 140). -/
def breaksImmediately : Outcome → Bool
  | Outcome.success _ => false
  | Outcome.httpError status content =>
    (status == 403 && strContains content "quotaExceeded") ||
      !(status == 403 || status == 500 || status == 503)
  | Outcome.otherError => true

/-- Declarative value of the video list built by the retry loop entered at
attempt index `n` with an empty accumulator. -/
def fsExpand (ctx : Ctx) (keyword : String) (depth n : Nat) : List SearchResult :=
  match firstSuccess ctx keyword n (ctx.max_retries - n) with
  | none => []
  | some items => specItems ctx depth items

/-- Result sequence of one call as seen by the caller (empty when the call
raised). -/
def searchVideos (ctx : Ctx) (keyword : String) (depth c : Nat) :
    List SearchResult :=
  match search_videos_by_keyword ctx keyword depth c with
  | Except.ok st => st.videos
  | Except.error _ => []

/-- Configuration record supplied by config.json; the `isinstance` checks of
`validate_config` are carried by the field types (numbers modelled as `Int`
and `ℚ`). -/
structure Config where
  api_key : String
  keywords : List String
  max_results_per_keyword : Int
  requests_per_second : ℚ
  max_depth : Int
  max_retries : Int
  default_timeout : ℚ
deriving DecidableEq

/-- Translation of `validate_config` (obwc.py lines 46-76), with each range
check in source order; an error models the raised `ValueError`. -/
def validate_config (config : Config) : Except String Unit :=
  if config.api_key = "" then
    Except.error "API key must be a non-empty string"
  else if config.keywords = [] then
    Except.error "Keywords must be a non-empty list"
  else if config.max_results_per_keyword < 1 then
    Except.error "Max results per keyword must be a positive integer"
  else if config.requests_per_second < 0 then
    Except.error "Requests per second must be a non-negative number"
  else if config.max_depth < 1 then
    Except.error "Max depth must be a positive integer"
  else if config.max_retries < 1 then
    Except.error "Max retries must be a positive integer"
  else if config.default_timeout < 0 then
    Except.error "Default timeout must be a non-negative number"
  else Except.ok ()

/-- Python division, raising `ZeroDivisionError` on a zero divisor. -/
def pyDiv (a b : ℚ) : Except String ℚ :=
  if b = 0 then Except.error "ZeroDivisionError" else Except.ok (a / b)

/-- Computation `sleep_time = 1 / requests_per_second` performed by `main` at
obwc.py line 188, directly after validation succeeds and before any keyword
is crawled. -/
def mainSleepTime (config : Config) : Except String ℚ :=
  pyDiv 1 config.requests_per_second

/-- Unfolding of `fsExpand` when the attempt succeeds. -/
theorem fsExpand_success {ctx : Ctx} {keyword : String} {depth n : Nat}
    {items : List Item} (hn : n < ctx.max_retries)
    (hapi : ctx.api keyword n = Outcome.success items) :
    fsExpand ctx keyword depth n = specItems ctx depth items := by
  have hm : ctx.max_retries - n = (ctx.max_retries - (n + 1)) + 1 := by omega
  unfold fsExpand
  rw [hm]
  simp [firstSuccess, hapi]

/-- Unfolding of `fsExpand` when the attempt hits the quota variant. -/
theorem fsExpand_quota {ctx : Ctx} {keyword : String} {depth n : Nat}
    {status : Nat} {content : String} (hn : n < ctx.max_retries)
    (hapi : ctx.api keyword n = Outcome.httpError status content)
    (hq : (status == 403 && strContains content "quotaExceeded") = true) :
    fsExpand ctx keyword depth n = [] := by
  have hm : ctx.max_retries - n = (ctx.max_retries - (n + 1)) + 1 := by omega
  unfold fsExpand
  rw [hm]
  simp [firstSuccess, hapi, hq]

/-- Unfolding of `fsExpand` across one retryable failure. -/
theorem fsExpand_retry {ctx : Ctx} {keyword : String} {depth n : Nat}
    {status : Nat} {content : String} (hn : n < ctx.max_retries)
    (hapi : ctx.api keyword n = Outcome.httpError status content)
    (hq : ¬(status == 403 && strContains content "quotaExceeded") = true)
    (hr : (status == 403 || status == 500 || status == 503) = true) :
    fsExpand ctx keyword depth n = fsExpand ctx keyword depth (n + 1) := by
  have hm : ctx.max_retries - n = (ctx.max_retries - (n + 1)) + 1 := by omega
  unfold fsExpand
  rw [hm]
  simp [firstSuccess, hapi, hq, hr]

/-- Unfolding of `fsExpand` on a non-retryable status. -/
theorem fsExpand_nonretry {ctx : Ctx} {keyword : String} {depth n : Nat}
    {status : Nat} {content : String} (hn : n < ctx.max_retries)
    (hapi : ctx.api keyword n = Outcome.httpError status content)
    (hq : ¬(status == 403 && strContains content "quotaExceeded") = true)
    (hr : ¬(status == 403 || status == 500 || status == 503) = true) :
    fsExpand ctx keyword depth n = [] := by
  have hm : ctx.max_retries - n = (ctx.max_retries - (n + 1)) + 1 := by omega
  unfold fsExpand
  rw [hm]
  simp [firstSuccess, hapi, hq, hr]

/-- Unfolding of `fsExpand` on an unclassified error. -/
theorem fsExpand_other {ctx : Ctx} {keyword : String} {depth n : Nat}
    (hn : n < ctx.max_retries)
    (hapi : ctx.api keyword n = Outcome.otherError) :
    fsExpand ctx keyword depth n = [] := by
  have hm : ctx.max_retries - n = (ctx.max_retries - (n + 1)) + 1 := by omega
  unfold fsExpand
  rw [hm]
  simp [firstSuccess, hapi]

/-- Unfolding of `fsExpand` when the retry budget is exhausted. -/
theorem fsExpand_exhausted {ctx : Ctx} {keyword : String} {depth n : Nat}
    (hn : ¬n < ctx.max_retries) :
    fsExpand ctx keyword depth n = [] := by
  have hm : ctx.max_retries - n = 0 := by omega
  unfold fsExpand
  rw [hm]
  simp [firstSuccess]

theorem specItems_nil (ctx : Ctx) (depth : Nat) : specItems ctx depth [] = [] := by
  rw [specItems.eq_def]

theorem specItems_cons (ctx : Ctx) (depth : Nat) (search_result : Item)
    (rest : List Item) :
    specItems ctx depth (search_result :: rest) =
      (mkVideoMetadata search_result depth ::
        (if h : depth < ctx.max_depth then
          specKws ctx depth h
            (extract_related_keywords (mkVideoMetadata search_result depth))
        else [])) ++ specItems ctx depth rest := by
  rw [specItems.eq_def]

theorem specKws_nil (ctx : Ctx) (depth : Nat) (h : depth < ctx.max_depth) :
    specKws ctx depth h [] = [] := by
  rw [specKws.eq_def]

theorem specKws_cons (ctx : Ctx) (depth : Nat) (h : depth < ctx.max_depth)
    (keyword : String) (rest : List String) :
    specKws ctx depth h (keyword :: rest) =
      specCrawl ctx keyword (depth + 1) ++ specKws ctx depth h rest := by
  rw [specKws.eq_def]

theorem crawl_refines_spec (ctx : Ctx) (hkey : ctx.api_key ≠ "") :
    (∀ (keyword : String) (depth n : Nat) (videos : List SearchResult)
        (c : Nat) (sleeps : List ℚ), ∃ sl c2,
        searchAttempts ctx keyword depth n videos c sleeps =
          ⟨videos ++ fsExpand ctx keyword depth n, sl, c2⟩) ∧
    (∀ (depth : Nat) (items : List Item) (videos : List SearchResult)
        (c : Nat) (sleeps : List ℚ), ∃ sl c2,
        processItems ctx depth items videos c sleeps =
          (⟨videos ++ specItems ctx depth items, sl, c2⟩, true)) ∧
    (∀ (depth : Nat) (h : depth < ctx.max_depth) (kws : List String)
        (videos : List SearchResult) (c : Nat) (sleeps : List ℚ), ∃ sl c2,
        processKeywords ctx depth h kws videos c sleeps =
          (⟨videos ++ specKws ctx depth h kws, sl, c2⟩, true)) ∧
    (∀ (keyword : String) (depth c : Nat), ∃ sl c2,
        search_videos_by_keyword ctx keyword depth c =
          Except.ok ⟨specCrawl ctx keyword depth, sl, c2⟩) := by
  refine searchAttempts.mutual_induct ctx
    (fun keyword depth n videos c sleeps => ∃ sl c2,
      searchAttempts ctx keyword depth n videos c sleeps =
        ⟨videos ++ fsExpand ctx keyword depth n, sl, c2⟩)
    (fun depth items videos c sleeps => ∃ sl c2,
      processItems ctx depth items videos c sleeps =
        (⟨videos ++ specItems ctx depth items, sl, c2⟩, true))
    (fun depth h kws videos c sleeps => ∃ sl c2,
      processKeywords ctx depth h kws videos c sleeps =
        (⟨videos ++ specKws ctx depth h kws, sl, c2⟩, true))
    (fun keyword depth c => ∃ sl c2,
      search_videos_by_keyword ctx keyword depth c =
        Except.ok ⟨specCrawl ctx keyword depth, sl, c2⟩)
    ?_ ?_ ?_ ?_ ?_ ?_ ?_ ?_ ?_ ?_ ?_ ?_ ?_ ?_ ?_
  · -- success attempt
    intro keyword depth n videos c sleeps hn items hapi ih
    obtain ⟨sl, c2, hp⟩ := ih
    refine ⟨sl, c2, ?_⟩
    rw [searchAttempts]
    simp only [dif_pos hn, hapi]
    rw [hp, fsExpand_success hn hapi]
  · -- quota
    intro keyword depth n videos c sleeps hn status content hapi hq
    refine ⟨sleeps, c, ?_⟩
    rw [searchAttempts]
    simp only [dif_pos hn, hapi, if_pos hq]
    rw [fsExpand_quota hn hapi hq]
    simp
  · -- retryable
    intro keyword depth n videos c sleeps hn status content hapi hq hr ih
    obtain ⟨sl, c2, hrec⟩ := ih
    refine ⟨sl, c2, ?_⟩
    rw [searchAttempts]
    simp only [dif_pos hn, hapi, if_neg hq, if_pos hr]
    rw [hrec, fsExpand_retry hn hapi hq hr]
  · -- non-retryable http
    intro keyword depth n videos c sleeps hn status content hapi hq hr
    refine ⟨sleeps, c, ?_⟩
    rw [searchAttempts]
    simp only [dif_pos hn, hapi, if_neg hq, if_neg hr]
    rw [fsExpand_nonretry hn hapi hq hr]
    simp
  · -- other error
    intro keyword depth n videos c sleeps hn hapi
    refine ⟨sleeps, c, ?_⟩
    rw [searchAttempts]
    simp only [dif_pos hn, hapi]
    rw [fsExpand_other hn hapi]
    simp
  · -- retries exhausted
    intro keyword depth n videos c sleeps hn
    refine ⟨sleeps, c, ?_⟩
    rw [searchAttempts]
    simp only [dif_neg hn]
    rw [fsExpand_exhausted hn]
    simp
  · -- items nil
    intro depth videos c sleeps
    refine ⟨sleeps, c, ?_⟩
    rw [processItems]
    simp [specItems]
  · -- items cons, keywords loop ok
    intro depth videos c sleeps search_result rest
    dsimp only
    intro h st hpk ih3 ih2
    obtain ⟨sl3, c3, hpk'⟩ := ih3
    obtain ⟨sl2, c2, hpi⟩ := ih2
    have h12 := hpk.symm.trans hpk'
    injection h12 with hst htriv
    refine ⟨sl2, c2, ?_⟩
    rw [processItems.eq_def]
    simp only [dif_pos h, hpk]
    rw [hpi, hst, specItems_cons]
    simp [dif_pos h, List.append_assoc]
  · -- items cons, keywords loop aborted
    intro depth videos c sleeps search_result rest
    dsimp only
    intro h st hpk ih3
    obtain ⟨sl3, c3, hpk'⟩ := ih3
    have h12 := hpk.symm.trans hpk'
    injection h12 with hst htriv
    exact absurd htriv.symm (by simp)
  · -- items cons, no depth budget
    intro depth videos c sleeps search_result rest
    dsimp only
    intro h ih2
    obtain ⟨sl2, c2, hpi⟩ := ih2
    refine ⟨sl2, c2, ?_⟩
    rw [processItems.eq_def]
    simp only [dif_neg h]
    rw [hpi, specItems_cons]
    simp [dif_neg h]
  · -- keywords nil
    intro depth h videos c sleeps
    refine ⟨sleeps, c, ?_⟩
    rw [processKeywords]
    simp [specKws]
  · -- keywords cons ok
    intro depth h videos c sleeps x xs sub hsub ih4 ih3
    obtain ⟨sl4, c4, hsub'⟩ := ih4
    obtain ⟨sl3, c3, hrest⟩ := ih3
    have h12 := hsub.symm.trans hsub'
    injection h12 with hsubv
    refine ⟨sl3, c3, ?_⟩
    rw [processKeywords.eq_def]
    simp only [hsub]
    rw [hrest, hsubv, specKws_cons]
    simp [List.append_assoc]
  · -- keywords cons error
    intro depth h videos c sleeps x xs a hsub ih4
    obtain ⟨sl4, c4, hsub'⟩ := ih4
    rw [hsub] at hsub'
    exact absurd hsub' (by simp)
  · -- empty api key
    intro keyword depth c hk
    exact absurd hk hkey
  · -- non-empty api key
    intro keyword depth c hk ih1
    obtain ⟨sl, c2, h1⟩ := ih1
    refine ⟨sl, c2, ?_⟩
    rw [search_videos_by_keyword]
    simp only [if_neg hk]
    rw [h1]
    have : fsExpand ctx keyword depth 0 = specCrawl ctx keyword depth := by
      unfold fsExpand specCrawl
      simp
    rw [this]
    simp

theorem searchAttempts_retry_step {ctx : Ctx} {keyword : String}
    {depth n : Nat} {status : Nat} {content : String}
    (videos : List SearchResult) (c : Nat) (sleeps : List ℚ)
    (hn : n < ctx.max_retries)
    (hapi : ctx.api keyword n = Outcome.httpError status content)
    (hq : (status == 403 && strContains content "quotaExceeded") = false)
    (hror : (status == 403 || status == 500 || status == 503) = true) :
    searchAttempts ctx keyword depth n videos c sleeps =
      searchAttempts ctx keyword depth (n + 1) videos (c + 1)
        (sleeps ++ [sleepTime ctx.default_timeout n (ctx.rand c)]) := by
  conv_lhs => rw [searchAttempts]
  simp only [dif_pos hn, hapi, if_neg (by simp [hq] : ¬(status == 403 &&
    strContains content "quotaExceeded") = true), if_pos hror]

theorem searchAttempts_break_step {ctx : Ctx} {keyword : String}
    {depth n : Nat} (videos : List SearchResult) (c : Nat) (sleeps : List ℚ)
    (hn : n < ctx.max_retries)
    (hb : breaksImmediately (ctx.api keyword n) = true) :
    searchAttempts ctx keyword depth n videos c sleeps = ⟨videos, sleeps, c⟩ := by
  conv_lhs => rw [searchAttempts]
  cases hapi : ctx.api keyword n with
  | success items => rw [hapi] at hb; simp [breaksImmediately] at hb
  | httpError status content =>
    rw [hapi] at hb
    simp only [breaksImmediately, Bool.or_eq_true, Bool.not_eq_true'] at hb
    rcases hb with hb | hb
    · simp only [dif_pos hn, hapi, if_pos hb]
    · have h403 : (status == 403) = false := by
        cases h : status == 403 with
        | true => rw [h] at hb; simp at hb
        | false => rfl
      simp only [dif_pos hn, hapi]
      rw [if_neg (by simp [h403]), if_neg (by simp [hb])]
  | otherError => simp only [dif_pos hn, hapi]

theorem searchAttempts_success_step {ctx : Ctx} {keyword : String}
    {depth n : Nat} {items : List Item}
    (videos : List SearchResult) (c : Nat) (sleeps : List ℚ)
    (hn : n < ctx.max_retries)
    (hapi : ctx.api keyword n = Outcome.success items) :
    searchAttempts ctx keyword depth n videos c sleeps =
      (processItems ctx depth items videos c sleeps).1 := by
  conv_lhs => rw [searchAttempts]
  simp only [dif_pos hn, hapi]

theorem searchAttempts_skip_retryable (ctx : Ctx) (keyword : String)
    (depth : Nat) :
    ∀ (j n : Nat) (videos : List SearchResult) (c : Nat) (sleeps : List ℚ),
      n + j ≤ ctx.max_retries →
      (∀ k, n ≤ k → k < n + j → isRetryableFailure (ctx.api keyword k) = true) →
      searchAttempts ctx keyword depth n videos c sleeps =
        searchAttempts ctx keyword depth (n + j) videos (c + j)
          (sleeps ++ (List.range j).map
            (fun i => sleepTime ctx.default_timeout (n + i) (ctx.rand (c + i)))) := by
  intro j
  induction j with
  | zero => intro n videos c sleeps hle hall; simp
  | succ m ih =>
    intro n videos c sleeps hle hall
    have hn : n < ctx.max_retries := by omega
    have hr0 : isRetryableFailure (ctx.api keyword n) = true :=
      hall n le_rfl (by omega)
    cases hapi : ctx.api keyword n with
    | success items => rw [hapi] at hr0; simp [isRetryableFailure] at hr0
    | otherError => rw [hapi] at hr0; simp [isRetryableFailure] at hr0
    | httpError status content =>
      rw [hapi] at hr0
      simp only [isRetryableFailure, Bool.and_eq_true, Bool.not_eq_true'] at hr0
      obtain ⟨hq, hror⟩ := hr0
      rw [searchAttempts_retry_step videos c sleeps hn hapi hq hror]
      rw [ih (n + 1) videos (c + 1) _ (by omega)
        (fun k hk1 hk2 => hall k (by omega) (by omega))]
      have hmap : List.map
          (fun i => sleepTime ctx.default_timeout (n + 1 + i) (ctx.rand (c + 1 + i)))
          (List.range m) =
          List.map ((fun i => sleepTime ctx.default_timeout (n + i) (ctx.rand (c + i))) ∘
            Nat.succ) (List.range m) := by
        refine List.map_congr_left ?_
        intro a ha
        simp only [Function.comp, Nat.succ_eq_add_one]
        have e1 : n + (a + 1) = n + 1 + a := by omega
        have e2 : c + (a + 1) = c + 1 + a := by omega
        rw [e1, e2]
      congr 1
      · omega
      · omega
      · rw [List.append_assoc]
        congr 1
        rw [List.range_succ_eq_map, List.map_cons, List.map_map, ← hmap]
        simp

theorem specCrawl_none {ctx : Ctx} {keyword : String} (depth : Nat)
    (hfs : firstSuccess ctx keyword 0 ctx.max_retries = none) :
    specCrawl ctx keyword depth = [] := by
  rw [specCrawl.eq_def, hfs]

theorem specCrawl_some {ctx : Ctx} {keyword : String} {items : List Item}
    (depth : Nat)
    (hfs : firstSuccess ctx keyword 0 ctx.max_retries = some items) :
    specCrawl ctx keyword depth = specItems ctx depth items := by
  rw [specCrawl.eq_def, hfs]

theorem spec_depth_bounds (ctx : Ctx) :
    (∀ (keyword : String) (depth : Nat), ∀ r ∈ specCrawl ctx keyword depth,
        depth ≤ r.depth ∧ (depth ≤ ctx.max_depth → r.depth ≤ ctx.max_depth)) ∧
    (∀ (depth : Nat) (items : List Item), ∀ r ∈ specItems ctx depth items,
        depth ≤ r.depth ∧ (depth ≤ ctx.max_depth → r.depth ≤ ctx.max_depth)) ∧
    (∀ (depth : Nat) (h : depth < ctx.max_depth) (kws : List String),
        ∀ r ∈ specKws ctx depth h kws,
        depth + 1 ≤ r.depth ∧ r.depth ≤ ctx.max_depth) := by
  refine specCrawl.mutual_induct ctx
    (fun keyword depth => ∀ r ∈ specCrawl ctx keyword depth,
      depth ≤ r.depth ∧ (depth ≤ ctx.max_depth → r.depth ≤ ctx.max_depth))
    (fun depth items => ∀ r ∈ specItems ctx depth items,
      depth ≤ r.depth ∧ (depth ≤ ctx.max_depth → r.depth ≤ ctx.max_depth))
    (fun depth h kws => ∀ r ∈ specKws ctx depth h kws,
      depth + 1 ≤ r.depth ∧ r.depth ≤ ctx.max_depth)
    ?_ ?_ ?_ ?_ ?_ ?_
  · intro keyword depth hfs r hr
    rw [specCrawl_none depth hfs] at hr
    simp at hr
  · intro keyword depth items hfs ih r hr
    rw [specCrawl_some depth hfs] at hr
    exact ih r hr
  · intro depth r hr
    rw [specItems_nil] at hr
    simp at hr
  · intro depth search_result rest
    dsimp only
    intro ih3 ih2 r hr
    rw [specItems_cons] at hr
    simp only [List.mem_append, List.mem_cons] at hr
    rcases hr with (hr | hr) | hr
    · subst hr
      refine ⟨le_rfl, fun hle => ?_⟩
      simpa [mkVideoMetadata] using hle
    · by_cases hlt : depth < ctx.max_depth
      · rw [dif_pos hlt] at hr
        obtain ⟨h1, h2⟩ := ih3 hlt r hr
        exact ⟨by omega, fun _ => h2⟩
      · rw [dif_neg hlt] at hr
        simp at hr
    · exact ih2 r hr
  · intro depth h r hr
    rw [specKws_nil] at hr
    simp at hr
  · intro depth h x xs ih1 ih3 r hr
    rw [specKws_cons] at hr
    rcases List.mem_append.1 hr with hr | hr
    · obtain ⟨h1, h2⟩ := ih1 r hr
      exact ⟨h1, h2 (by omega)⟩
    · exact ih3 r hr

theorem firstSuccess_congr (ctx1 ctx2 : Ctx)
    (hapi : ∀ k n, ctx1.api k n = ctx2.api k n) (keyword : String) :
    ∀ (remaining n : Nat),
      firstSuccess ctx1 keyword n remaining =
        firstSuccess ctx2 keyword n remaining := by
  intro remaining
  induction remaining with
  | zero => intro n; rfl
  | succ m ih =>
    intro n
    have h2 : ctx2.api keyword n = ctx1.api keyword n := (hapi keyword n).symm
    cases ho : ctx1.api keyword n with
    | success items => simp [firstSuccess, ho, h2.trans ho]
    | httpError status content =>
      simp only [firstSuccess, ho, h2.trans ho]
      split_ifs with hq hror
      · rfl
      · exact ih (n + 1)
      · rfl
    | otherError => simp [firstSuccess, ho, h2.trans ho]

theorem spec_congr (ctx1 ctx2 : Ctx)
    (hapi : ∀ k n, ctx1.api k n = ctx2.api k n)
    (hd : ctx1.max_depth = ctx2.max_depth)
    (hr : ctx1.max_retries = ctx2.max_retries) :
    (∀ (keyword : String) (depth : Nat),
        specCrawl ctx1 keyword depth = specCrawl ctx2 keyword depth) ∧
    (∀ (depth : Nat) (items : List Item),
        specItems ctx1 depth items = specItems ctx2 depth items) ∧
    (∀ (depth : Nat) (h : depth < ctx1.max_depth) (kws : List String),
        ∀ (h2 : depth < ctx2.max_depth),
        specKws ctx1 depth h kws = specKws ctx2 depth h2 kws) := by
  refine specCrawl.mutual_induct ctx1
    (fun keyword depth => specCrawl ctx1 keyword depth = specCrawl ctx2 keyword depth)
    (fun depth items => specItems ctx1 depth items = specItems ctx2 depth items)
    (fun depth h kws => ∀ (h2 : depth < ctx2.max_depth),
      specKws ctx1 depth h kws = specKws ctx2 depth h2 kws)
    ?_ ?_ ?_ ?_ ?_ ?_
  · intro keyword depth hfs
    have hfs2 : firstSuccess ctx2 keyword 0 ctx2.max_retries = none := by
      rw [← hr, ← firstSuccess_congr ctx1 ctx2 hapi keyword]
      exact hfs
    rw [specCrawl_none depth hfs, specCrawl_none depth hfs2]
  · intro keyword depth items hfs ih
    have hfs2 : firstSuccess ctx2 keyword 0 ctx2.max_retries = some items := by
      rw [← hr, ← firstSuccess_congr ctx1 ctx2 hapi keyword]
      exact hfs
    rw [specCrawl_some depth hfs, specCrawl_some depth hfs2]
    exact ih
  · intro depth
    rw [specItems_nil, specItems_nil]
  · intro depth search_result rest
    dsimp only
    intro ih3 ih2
    rw [specItems_cons, specItems_cons, ih2]
    congr 2
    by_cases hlt : depth < ctx1.max_depth
    · rw [dif_pos hlt, dif_pos (hd ▸ hlt)]
      exact ih3 hlt (hd ▸ hlt)
    · rw [dif_neg hlt, dif_neg (hd ▸ hlt)]
  · intro depth h h2
    rw [specKws_nil, specKws_nil]
  · intro depth h x xs ih1 ih3 h2
    rw [specKws_cons, specKws_cons, ih1, ih3 h2]

theorem search_ok_api_key {ctx : Ctx} {keyword : String} {depth c : Nat}
    {st : St}
    (h : search_videos_by_keyword ctx keyword depth c = Except.ok st) :
    ctx.api_key ≠ "" := by
  intro hk
  rw [search_videos_by_keyword, if_pos hk] at h
  exact Except.noConfusion h

theorem searchAttempts_exhausted {ctx : Ctx} {keyword : String}
    {depth n : Nat} (videos : List SearchResult) (c : Nat) (sleeps : List ℚ)
    (hn : ¬n < ctx.max_retries) :
    searchAttempts ctx keyword depth n videos c sleeps = ⟨videos, sleeps, c⟩ := by
  rw [searchAttempts, dif_neg hn]

theorem search_all_retryable (ctx : Ctx) (keyword : String) (depth c : Nat)
    (hkey : ctx.api_key ≠ "")
    (hall : ∀ k, k < ctx.max_retries →
      isRetryableFailure (ctx.api keyword k) = true) :
    search_videos_by_keyword ctx keyword depth c =
      Except.ok ⟨[], (List.range ctx.max_retries).map
        (fun i => sleepTime ctx.default_timeout i (ctx.rand (c + i))),
        c + ctx.max_retries⟩ := by
  rw [search_videos_by_keyword, if_neg hkey]
  rw [searchAttempts_skip_retryable ctx keyword depth ctx.max_retries 0 [] c []
    (by omega) (fun k hk1 hk2 => hall k (by omega))]
  rw [searchAttempts_exhausted _ _ _ (by omega)]
  simp [Nat.zero_add]

theorem firstSuccess_retry_step {ctx : Ctx} {keyword : String} {n : Nat}
    {status : Nat} {content : String}
    (hapi : ctx.api keyword n = Outcome.httpError status content)
    (hq : (status == 403 && strContains content "quotaExceeded") = false)
    (hror : (status == 403 || status == 500 || status == 503) = true)
    (m : Nat) :
    firstSuccess ctx keyword n (m + 1) = firstSuccess ctx keyword (n + 1) m := by
  simp [firstSuccess, hapi, hq, hror]

theorem firstSuccess_skip (ctx : Ctx) (keyword : String) :
    ∀ (j n m : Nat),
      (∀ k, n ≤ k → k < n + j → isRetryableFailure (ctx.api keyword k) = true) →
      firstSuccess ctx keyword n (j + m) = firstSuccess ctx keyword (n + j) m := by
  intro j
  induction j with
  | zero => intro n m hall; simp
  | succ p ih =>
    intro n m hall
    have hr0 : isRetryableFailure (ctx.api keyword n) = true :=
      hall n le_rfl (by omega)
    cases hapi : ctx.api keyword n with
    | success items => rw [hapi] at hr0; simp [isRetryableFailure] at hr0
    | otherError => rw [hapi] at hr0; simp [isRetryableFailure] at hr0
    | httpError status content =>
      rw [hapi] at hr0
      simp only [isRetryableFailure, Bool.and_eq_true, Bool.not_eq_true'] at hr0
      obtain ⟨hq, hror⟩ := hr0
      have hstep : p + 1 + m = (p + m) + 1 := by omega
      rw [hstep, firstSuccess_retry_step hapi hq hror,
        ih (n + 1) m (fun k hk1 hk2 => hall k (by omega) (by omega)),
        show n + 1 + p = n + (p + 1) from by omega]

/-- Deterministic sample API used to witness the theorems on concrete runs:
a seed keyword returning one item whose description spiders to further
keywords, and an unclassified error everywhere else. -/
def apiW : String → Nat → Outcome := fun keyword _ =>
  if keyword = "seed" then
    Outcome.success [⟨"T one", "v1", "ch", some "alpha beta"⟩]
  else if keyword = "alpha" then Outcome.success [⟨"A", "v2", "ch", none⟩]
  else if keyword = "beta" then Outcome.success []
  else Outcome.otherError

/-- Sample context over `apiW` with depth budget 1. -/
def ctxW : Ctx := ⟨apiW, fun _ => 0, 10, 1, "KEY", 3, 1⟩

/-- Sample context whose API fails with a retryable 500 on every attempt. -/
def ctxR : Ctx :=
  ⟨fun _ _ => Outcome.httpError 500 "boom", fun _ => 0, 10, 1, "KEY", 3, 0⟩

/-- Sample context whose API reports quota exhaustion on every attempt. -/
def ctxQ : Ctx :=
  ⟨fun _ _ => Outcome.httpError 403 "err quotaExceeded body", fun _ => 0, 10, 1,
    "KEY", 3, 1⟩

/-- Sample context with one retry, zero base backoff and a maximal raw jitter
draw of 1000 on every sleep. -/
def ctxJ : Ctx :=
  ⟨fun _ _ => Outcome.httpError 500 "boom", fun _ => 1000, 10, 0, "KEY", 1, 0⟩

/-- C1: recursion descends with depth + 1 below max_depth only (definitional
in `processItems`/`processKeywords`, which pass `ctx` unchanged and recurse at
`depth + 1` only under the guard `depth < ctx.max_depth`); consequently every
result of a call entered at a depth within budget carries a depth tag between
the entry depth and max_depth. -/
theorem c1_depth_invariant (ctx : Ctx) (keyword : String) (depth c : Nat)
    (hdep : depth ≤ ctx.max_depth) :
    ∀ r ∈ searchVideos ctx keyword depth c,
      depth ≤ r.depth ∧ r.depth ≤ ctx.max_depth := by
  intro r hr
  unfold searchVideos at hr
  cases hs : search_videos_by_keyword ctx keyword depth c with
  | error e => rw [hs] at hr; simp at hr
  | ok st =>
    rw [hs] at hr
    have hkey : ctx.api_key ≠ "" := search_ok_api_key hs
    obtain ⟨sl, c2, heq⟩ := (crawl_refines_spec ctx hkey).2.2.2 keyword depth c
    rw [hs] at heq
    injection heq with h1
    rw [h1] at hr
    obtain ⟨hb1, hb2⟩ := (spec_depth_bounds ctx).1 keyword depth r hr
    exact ⟨hb1, hb2 hdep⟩

/-- Witness for C1 at a concrete context. -/
theorem c1_depth_invariant_witness :
    0 ≤ ctxW.max_depth ∧
    (∀ r ∈ searchVideos ctxW "seed" 0 0,
      0 ≤ r.depth ∧ r.depth ≤ ctxW.max_depth) :=
  ⟨by decide, c1_depth_invariant ctxW "seed" 0 0 (by decide)⟩

/-- C2: a successful call returns exactly the declarative interleaving
`specCrawl`: the succeeding attempt's items in API order, each immediately
followed by the full result sequences of its recursive sub-calls in keyword
iteration order. -/
theorem c2_result_order (ctx : Ctx) (keyword : String) (depth c : Nat)
    (hkey : ctx.api_key ≠ "") :
    (search_videos_by_keyword ctx keyword depth c).map St.videos =
      Except.ok (specCrawl ctx keyword depth) := by
  obtain ⟨sl, c2, heq⟩ := (crawl_refines_spec ctx hkey).2.2.2 keyword depth c
  rw [heq]
  rfl

/-- Witness for C2 at a concrete context. -/
theorem c2_result_order_witness :
    ctxW.api_key ≠ "" ∧
    (search_videos_by_keyword ctxW "seed" 0 0).map St.videos =
      Except.ok (specCrawl ctxW "seed" 0) :=
  ⟨by decide, c2_result_order ctxW "seed" 0 0 (by decide)⟩

/-- C3 counterexample: an empty title together with a non-empty description
is a degenerate input on which extraction returns the description's token
rather than the empty set, refuting the claim as stated. -/
theorem c3_empty_title_counterexample :
    extract_related_keywords ⟨"", "u", "ch", "hello", 0⟩ = ["hello"] ∧
    extract_related_keywords ⟨"", "u", "ch", "hello", 0⟩ ≠ [] := by
  constructor <;> decide

/-- C3 amended: the extractor is total and returns the empty set whenever the
description is empty (hence also when title and description are both empty),
regardless of the title; an empty title alone does not force an empty
result. -/
theorem c3_empty_description_extraction (video_metadata : SearchResult)
    (hdesc : video_metadata.description = "") :
    extract_related_keywords video_metadata = [] := by
  unfold extract_related_keywords
  simp [hdesc]

/-- Witness for the amended C3 on the spec's own example record. -/
theorem c3_empty_description_extraction_witness :
    SearchResult.description ⟨"Python Programming Tutorial", "u", "ch", "", 0⟩ = "" ∧
    extract_related_keywords ⟨"Python Programming Tutorial", "u", "ch", "", 0⟩ = [] :=
  ⟨rfl, c3_empty_description_extraction ⟨"Python Programming Tutorial", "u", "ch", "", 0⟩ rfl⟩

/-- C4: with a non-empty API key no exception escapes a call; every failure
path of the oracle degrades to an `Except.ok` result. -/
theorem c4_no_exception_escapes (ctx : Ctx) (keyword : String) (depth c : Nat)
    (hkey : ctx.api_key ≠ "") :
    ∃ st : St, search_videos_by_keyword ctx keyword depth c = Except.ok st := by
  obtain ⟨sl, c2, heq⟩ := (crawl_refines_spec ctx hkey).2.2.2 keyword depth c
  exact ⟨_, heq⟩

/-- Witness for C4 on a context whose API always fails. -/
theorem c4_no_exception_escapes_witness :
    ctxR.api_key ≠ "" ∧
    ∃ st : St, search_videos_by_keyword ctxR "x" 0 0 = Except.ok st :=
  ⟨by decide, c4_no_exception_escapes ctxR "x" 0 0 (by decide)⟩

/-- C5: when the quota variant is reported at attempt `n` (after retryable
failures only), the call breaks out of the retry loop at once: no sleep for
attempt `n`, no further attempt, and only the (empty) accumulation so far is
returned; at `n = 0` this is the empty sequence with no sleeps at all. -/
theorem c5_quota_abort (ctx : Ctx) (keyword : String) (depth c n : Nat)
    (content : String)
    (hkey : ctx.api_key ≠ "")
    (hn : n < ctx.max_retries)
    (hprev : ∀ k, k < n → isRetryableFailure (ctx.api keyword k) = true)
    (hq : ctx.api keyword n = Outcome.httpError 403 content)
    (hcontent : strContains content "quotaExceeded" = true) :
    search_videos_by_keyword ctx keyword depth c =
      Except.ok ⟨[], (List.range n).map
        (fun i => sleepTime ctx.default_timeout i (ctx.rand (c + i))),
        c + n⟩ := by
  rw [search_videos_by_keyword, if_neg hkey]
  rw [searchAttempts_skip_retryable ctx keyword depth n 0 [] c []
    (by omega) (fun k hk1 hk2 => hprev k (by omega))]
  have hb : breaksImmediately (ctx.api keyword (0 + n)) = true := by
    rw [Nat.zero_add, hq]
    simp [breaksImmediately, hcontent]
  rw [searchAttempts_break_step _ _ _ (by omega) hb]
  simp [Nat.zero_add]

/-- Witness for C5: quota exhaustion on the first attempt returns the empty
sequence with no sleeps and no randomness consumed. -/
theorem c5_quota_abort_witness :
    ctxQ.api_key ≠ "" ∧ 0 < ctxQ.max_retries ∧
    (∀ k, k < 0 → isRetryableFailure (ctxQ.api "x" k) = true) ∧
    ctxQ.api "x" 0 = Outcome.httpError 403 "err quotaExceeded body" ∧
    strContains "err quotaExceeded body" "quotaExceeded" = true ∧
    search_videos_by_keyword ctxQ "x" 0 0 =
      Except.ok ⟨[], (List.range 0).map
        (fun i => sleepTime ctxQ.default_timeout i (ctxQ.rand (0 + i))),
        0 + 0⟩ :=
  ⟨by decide, by decide, by decide, by decide, by decide,
    c5_quota_abort ctxQ "x" 0 0 0 "err quotaExceeded body" (by decide)
      (by decide) (by decide) (by decide) (by decide)⟩

/-- C6 counterexample: `random.randint(0, 1000)` is inclusive, so the raw
draw 1000 gives jitter exactly 1 and a sleep of exactly b·2^0 + 1, which is
not strictly below b·2^0 + 1; the concrete run records that sleep. -/
theorem c6_jitter_counterexample :
    search_videos_by_keyword ctxJ "x" 0 0 =
      Except.ok ⟨[], [sleepTime ctxJ.default_timeout 0 (ctxJ.rand 0)], 1⟩ ∧
    sleepTime ctxJ.default_timeout 0 (ctxJ.rand 0) =
      ctxJ.default_timeout * 2 ^ 0 + 1 ∧
    ¬ sleepTime ctxJ.default_timeout 0 (ctxJ.rand 0) <
        ctxJ.default_timeout * 2 ^ 0 + 1 := by
  refine ⟨?_, ?_, ?_⟩
  · rw [search_all_retryable ctxJ "x" 0 0 (by decide) (by decide)]
    have : List.range 1 = [0] := rfl
    simp [ctxJ, this]
  · norm_num [sleepTime, ctxJ]
  · norm_num [sleepTime, ctxJ]

/-- C6 amended: for attempt index n and base backoff b, each backoff sleep
lies in the closed interval [b·2^n, b·2^n + 1]: the jitter is at most 1
second (and can attain it), not strictly below 1. -/
theorem c6_backoff_interval (b : ℚ) (n r : Nat) :
    b * 2 ^ n ≤ sleepTime b n r ∧ sleepTime b n r ≤ b * 2 ^ n + 1 := by
  unfold sleepTime
  have h2 : r % 1001 ≤ 1000 := by omega
  have h1 : ((r % 1001 : Nat) : ℚ) ≤ 1000 := by exact_mod_cast h2
  have h0 : (0 : ℚ) ≤ ((r % 1001 : Nat) : ℚ) := by positivity
  constructor
  · have := div_nonneg h0 (by norm_num : (0:ℚ) ≤ 1000)
    linarith
  · have hle : ((r % 1001 : Nat) : ℚ) / 1000 ≤ 1 := by
      rw [div_le_one (by norm_num : (0:ℚ) < 1000)]
      exact h1
    linarith

/-- C7: failed attempts contribute nothing to the accumulator, so the call
returns exactly the expansion of the first succeeding attempt's item list and
never mixes items from several attempts. -/
theorem c7_first_success_only (ctx : Ctx) (keyword : String) (depth c n : Nat)
    (items : List Item) (hkey : ctx.api_key ≠ "")
    (hn : n < ctx.max_retries)
    (hprev : ∀ k, k < n → isRetryableFailure (ctx.api keyword k) = true)
    (hsucc : ctx.api keyword n = Outcome.success items) :
    (search_videos_by_keyword ctx keyword depth c).map St.videos =
      Except.ok (specItems ctx depth items) := by
  have hfs : firstSuccess ctx keyword 0 ctx.max_retries = some items := by
    have h1 := firstSuccess_skip ctx keyword n 0 ((ctx.max_retries - n - 1) + 1)
      (fun k hk1 hk2 => hprev k (by omega))
    rw [Nat.zero_add] at h1
    rw [show ctx.max_retries = n + ((ctx.max_retries - n - 1) + 1) from by omega]
    rw [h1]
    simp [firstSuccess, hsucc]
  obtain ⟨sl, c2, heq⟩ := (crawl_refines_spec ctx hkey).2.2.2 keyword depth c
  rw [heq]
  simp only [Except.map]
  rw [specCrawl_some depth hfs]

/-- Witness for C7: a first-attempt success at a concrete context. -/
theorem c7_first_success_only_witness :
    ctxW.api_key ≠ "" ∧ 0 < ctxW.max_retries ∧
    (∀ k, k < 0 → isRetryableFailure (ctxW.api "seed" k) = true) ∧
    ctxW.api "seed" 0 = Outcome.success [⟨"T one", "v1", "ch", some "alpha beta"⟩] ∧
    (search_videos_by_keyword ctxW "seed" 0 0).map St.videos =
      Except.ok (specItems ctxW 0 [⟨"T one", "v1", "ch", some "alpha beta"⟩]) :=
  ⟨by decide, by decide, by decide, by decide,
    c7_first_success_only ctxW "seed" 0 0 0 [⟨"T one", "v1", "ch", some "alpha beta"⟩]
      (by decide) (by decide) (by decide) (by decide)⟩

/-- Sample context over `apiW` with a single retry, for the determinism
witness. -/
def ctxI : Ctx := ⟨apiW, fun _ => 7, 10, 1, "KEY", 1, 1⟩

/-- Second sample context sharing `apiW` with `ctxI` but differing in the
randomness oracle, API key and base backoff. -/
def ctxI2 : Ctx := ⟨apiW, fun _ => 99, 10, 1, "KEY2", 1, 5⟩

/-- C8: two runs against pointwise-equal deterministic APIs with the same
depth and retry budgets return identical result sequences, regardless of the
randomness oracle and counter; in particular recursion order over the
extracted keyword set is a deterministic function of the API answers. -/
theorem c8_deterministic_runs (ctx1 ctx2 : Ctx) (keyword : String)
    (depth c1 c2 : Nat)
    (hkey1 : ctx1.api_key ≠ "") (hkey2 : ctx2.api_key ≠ "")
    (hapi : ∀ k n, ctx1.api k n = ctx2.api k n)
    (hd : ctx1.max_depth = ctx2.max_depth)
    (hmr : ctx1.max_retries = ctx2.max_retries)
    (hone : ctx1.max_retries = 1) :
    (search_videos_by_keyword ctx1 keyword depth c1).map St.videos =
      (search_videos_by_keyword ctx2 keyword depth c2).map St.videos := by
  obtain ⟨sl1, d1, h1⟩ := (crawl_refines_spec ctx1 hkey1).2.2.2 keyword depth c1
  obtain ⟨sl2, d2, h2⟩ := (crawl_refines_spec ctx2 hkey2).2.2.2 keyword depth c2
  rw [h1, h2]
  simp only [Except.map]
  exact congrArg Except.ok ((spec_congr ctx1 ctx2 hapi hd hmr).1 keyword depth)

/-- Witness for C8 on two concrete contexts differing only in randomness,
API key and backoff. -/
theorem c8_deterministic_runs_witness :
    ctxI.api_key ≠ "" ∧ ctxI2.api_key ≠ "" ∧
    (∀ k n, ctxI.api k n = ctxI2.api k n) ∧
    ctxI.max_depth = ctxI2.max_depth ∧
    ctxI.max_retries = ctxI2.max_retries ∧
    ctxI.max_retries = 1 ∧
    (search_videos_by_keyword ctxI "seed" 0 0).map St.videos =
      (search_videos_by_keyword ctxI2 "seed" 0 5).map St.videos :=
  ⟨by decide, by decide, fun k n => rfl, rfl, rfl, rfl,
    c8_deterministic_runs ctxI ctxI2 "seed" 0 0 5 (by decide) (by decide)
      (fun k n => rfl) rfl rfl rfl⟩

/-- Configuration that passes validation with requests_per_second = 0. -/
def cfgZero : Config := ⟨"KEY", ["cats"], 10, 0, 2, 5, 1⟩

/-- C9 failing input: `validate_config` accepts requests_per_second = 0 (it
only requires a non-negative number), yet `main`'s very next step computes
`sleep_time = 1 / requests_per_second` (obwc.py line 188), which raises an
unhandled ZeroDivisionError before any keyword is crawled — the run does not
complete. -/
theorem c9_rps_zero_crash :
    validate_config cfgZero = Except.ok () ∧
    mainSleepTime cfgZero = Except.error "ZeroDivisionError" := by
  constructor
  · rfl
  · rfl

/-- C10: with every attempt failing retryably the call sleeps once per
attempt — `max_retries` sleeps in total, including one after the final
attempt even though no retry follows — while a first-attempt outcome that
breaks the loop (quota exhaustion, a non-retryable status, or an
unclassified error) returns with no sleep at all. -/
theorem c10_sleep_per_retryable_failure (ctx : Ctx) (keyword : String)
    (depth c : Nat) (hkey : ctx.api_key ≠ "") :
    ((∀ k, k < ctx.max_retries → isRetryableFailure (ctx.api keyword k) = true) →
      search_videos_by_keyword ctx keyword depth c =
        Except.ok ⟨[], (List.range ctx.max_retries).map
          (fun i => sleepTime ctx.default_timeout i (ctx.rand (c + i))),
          c + ctx.max_retries⟩ ∧
      ((List.range ctx.max_retries).map
        (fun i => sleepTime ctx.default_timeout i (ctx.rand (c + i)))).length =
          ctx.max_retries) ∧
    (0 < ctx.max_retries → breaksImmediately (ctx.api keyword 0) = true →
      search_videos_by_keyword ctx keyword depth c = Except.ok ⟨[], [], c⟩) := by
  constructor
  · intro hall
    exact ⟨search_all_retryable ctx keyword depth c hkey hall, by simp⟩
  · intro h0 hb
    rw [search_videos_by_keyword, if_neg hkey,
      searchAttempts_break_step _ _ _ h0 hb]

/-- Witness for C10 on a context whose API always fails retryably. -/
theorem c10_sleep_per_retryable_failure_witness :
    ctxR.api_key ≠ "" ∧
    (((∀ k, k < ctxR.max_retries → isRetryableFailure (ctxR.api "x" k) = true) →
      search_videos_by_keyword ctxR "x" 0 0 =
        Except.ok ⟨[], (List.range ctxR.max_retries).map
          (fun i => sleepTime ctxR.default_timeout i (ctxR.rand (0 + i))),
          0 + ctxR.max_retries⟩ ∧
      ((List.range ctxR.max_retries).map
        (fun i => sleepTime ctxR.default_timeout i (ctxR.rand (0 + i)))).length =
          ctxR.max_retries) ∧
    (0 < ctxR.max_retries → breaksImmediately (ctxR.api "x" 0) = true →
      search_videos_by_keyword ctxR "x" 0 0 = Except.ok ⟨[], [], 0⟩)) :=
  ⟨by decide, c10_sleep_per_retryable_failure ctxR "x" 0 0 (by decide)⟩
